import Mathlib

/-!
Verification of the aiosendspin-sounddevice specification against the
repository's code. The library's example programs (`examples/tui.py`,
`examples/comprehensive.py`, `examples/simple.py`, `examples/controller.py`)
are embedded directly; the core library module (`aiosendspin_sounddevice/client.py`)
is not present in the source tree, so the components it owns (VolumeController,
TimelineClock, AudioRingBuffer, ConnectionSupervisor) are modelled from the
specification text, each marked `Modelled from the spec:` in its doc comment.
-/

/-- Python `int()` truncation toward zero on a rational. -/
def pyInt (q : ℚ) : ℤ := if q < 0 then Int.ceil q else Int.floor q

theorem pyInt_natCast (n : ℕ) : pyInt (n : ℚ) = n := by
  unfold pyInt
  rw [if_neg (not_lt.mpr (Nat.cast_nonneg n))]
  exact Int.floor_natCast n

/-- Playback states from `aiosendspin.models.types.PlaybackStateType`. -/
inductive PlaybackStateType
  | playing
  | paused
  | stopped
  | idle
deriving DecidableEq, Repr

/-- A discovered server, from the library's `DiscoveredServer` data model:
name, host, port and websocket url. -/
structure DiscoveredServer where
  name : String
  host : String
  port : ℕ
  url : String
deriving DecidableEq, Repr

/-- The `UIState` dataclass of `examples/tui.py` (the fields the verified
operations touch; presentation-only fields are omitted). Local monotonic time
(`time.monotonic()`, seconds) is modelled as a rational. -/
structure UIState where
  server_url : Option String := none
  connected : Bool := false
  show_server_selector : Bool := false
  available_servers : List DiscoveredServer := []
  selected_server_index : ℤ := 0
  playback_state : Option PlaybackStateType := none
  track_progress_ms : Option ℤ := none
  track_duration_ms : Option ℤ := none
  progress_updated_at : ℚ := 0
  volume : Option ℤ := none
  muted : Bool := false
  player_volume : ℤ := 100
  player_muted : Bool := false
deriving Repr

namespace SendspinTUI

/-- The progress value computed by `SendspinTUI._build_progress_bar`
(tui.py lines 200-210): start from `track_progress_ms or 0`; if the playback
state is PLAYING, a progress capture exists (`progress_updated_at > 0`) and the
duration (`track_duration_ms or 0`) is positive, add the elapsed local time in
milliseconds, truncated to an int, clamping at the duration. -/
def build_progress_bar_progress_ms (s : UIState) (now : ℚ) : ℤ :=
  let progress := s.track_progress_ms.getD 0
  let duration := s.track_duration_ms.getD 0
  if s.playback_state = some PlaybackStateType.playing ∧
      0 < s.progress_updated_at ∧ 0 < duration then
    let elapsed_ms := (now - s.progress_updated_at) * 1000
    min duration (progress + pyInt elapsed_ms)
  else
    progress

/-- `SendspinTUI.set_progress` (tui.py lines 460-465): store the new progress
and duration and stamp the capture time. -/
def set_progress (s : UIState) (progress_ms duration_ms : Option ℤ) (now : ℚ) :
    UIState :=
  { s with
    track_progress_ms := progress_ms
    track_duration_ms := duration_ms
    progress_updated_at := now }

/-- `SendspinTUI.set_playback_state` (tui.py lines 430-446): when leaving
PLAYING (and a capture exists and `track_duration_ms` is truthy), freeze the
interpolated progress, clamped at the duration, and restamp the capture time;
then store the new state. -/
def set_playback_state (s : UIState) (st : PlaybackStateType) (now : ℚ) :
    UIState :=
  let s1 :=
    if s.playback_state = some PlaybackStateType.playing ∧
        st ≠ PlaybackStateType.playing ∧
        0 < s.progress_updated_at ∧
        s.track_duration_ms.getD 0 ≠ 0 then
      let elapsed_ms := (now - s.progress_updated_at) * 1000
      let interpolated := s.track_progress_ms.getD 0 + pyInt elapsed_ms
      { s with
        track_progress_ms := some (min (s.track_duration_ms.getD 0) interpolated)
        progress_updated_at := now }
    else s
  { s1 with playback_state := some st }

end SendspinTUI

theorem elapsed_ms_eval (T : ℚ) (δ : ℕ) :
    (T + (δ : ℚ) / 1000 - T) * 1000 = (δ : ℚ) := by
  have h : (T + (δ : ℚ) / 1000 - T) = (δ : ℚ) / 1000 := by ring
  rw [h, div_mul_cancel₀]
  norm_num

/-- C1: while PLAYING, with a capture of progress `p` ms taken at monotonic
time `T > 0` and duration `d > 0` ms, a progress query at `T + δ` ms returns
`min d (p + δ)` — the captured value plus elapsed local milliseconds, clamped
to the duration — and in particular never exceeds `d`; while not PLAYING the
query returns the captured value `p` unmodified. -/
theorem C1_track_progress_interpolation (s : UIState) (p d : ℤ) (T : ℚ) (δ : ℕ)
    (hp : s.track_progress_ms = some p)
    (hd : s.track_duration_ms = some d)
    (hT : s.progress_updated_at = T)
    (hT0 : 0 < T) (hd0 : 0 < d) :
    (s.playback_state = some PlaybackStateType.playing →
      SendspinTUI.build_progress_bar_progress_ms s (T + (δ : ℚ) / 1000) =
        min d (p + (δ : ℤ)) ∧
      SendspinTUI.build_progress_bar_progress_ms s (T + (δ : ℚ) / 1000) ≤ d) ∧
    (s.playback_state ≠ some PlaybackStateType.playing →
      ∀ t : ℚ, SendspinTUI.build_progress_bar_progress_ms s t = p) := by
  constructor
  · intro hps
    unfold SendspinTUI.build_progress_bar_progress_ms
    rw [if_pos]
    · rw [hp, hd, hT]
      simp only [Option.getD_some]
      rw [elapsed_ms_eval, pyInt_natCast]
      exact ⟨rfl, min_le_left _ _⟩
    · refine ⟨hps, ?_, ?_⟩
      · rw [hT]; exact hT0
      · rw [hd]; exact hd0
  · intro hps t
    unfold SendspinTUI.build_progress_bar_progress_ms
    rw [if_neg]
    · rw [hp]; rfl
    · intro hcon
      exact hps hcon.1

theorem C1_track_progress_interpolation_witness :
    ({ playback_state := some PlaybackStateType.playing,
       track_progress_ms := some 10000,
       track_duration_ms := some 30000,
       progress_updated_at := 7 } : UIState).track_progress_ms = some 10000 ∧
    SendspinTUI.build_progress_bar_progress_ms
      { playback_state := some PlaybackStateType.playing,
        track_progress_ms := some 10000,
        track_duration_ms := some 30000,
        progress_updated_at := 7 } (7 + (2000 : ℕ) / 1000) =
      min 30000 (10000 + (2000 : ℤ)) := by
  refine ⟨rfl, ?_⟩
  have h := C1_track_progress_interpolation
    { playback_state := some PlaybackStateType.playing,
      track_progress_ms := some 10000,
      track_duration_ms := some 30000,
      progress_updated_at := 7 }
    10000 30000 7 2000 rfl rfl rfl (by norm_num) (by norm_num)
  exact (h.1 rfl).1

/-- C2: on a transition from PLAYING to a non-PLAYING state at time `T + δ`
(with a capture of `p` ms at `T > 0` and duration `d > 0`), the stored
progress becomes exactly the interpolated value displayed at the transition
instant (so the displayed position does not jump), and every subsequent query
while not PLAYING — at any time, any number of times — returns that same
frozen value `min d (p + δ)`. -/
theorem C2_freeze_progress_on_leaving_playing (s : UIState) (p d : ℤ) (T : ℚ)
    (δ : ℕ) (st : PlaybackStateType)
    (hps : s.playback_state = some PlaybackStateType.playing)
    (hp : s.track_progress_ms = some p)
    (hd : s.track_duration_ms = some d)
    (hT : s.progress_updated_at = T)
    (hT0 : 0 < T) (hd0 : 0 < d) (hst : st ≠ PlaybackStateType.playing) :
    (SendspinTUI.set_playback_state s st (T + (δ : ℚ) / 1000)).track_progress_ms
      = some (SendspinTUI.build_progress_bar_progress_ms s (T + (δ : ℚ) / 1000)) ∧
    (∀ t : ℚ,
      SendspinTUI.build_progress_bar_progress_ms
        (SendspinTUI.set_playback_state s st (T + (δ : ℚ) / 1000)) t =
      min d (p + (δ : ℤ))) ∧
    SendspinTUI.build_progress_bar_progress_ms s (T + (δ : ℚ) / 1000) =
      min d (p + (δ : ℤ)) := by
  have hcond : s.playback_state = some PlaybackStateType.playing ∧
      st ≠ PlaybackStateType.playing ∧
      0 < s.progress_updated_at ∧
      s.track_duration_ms.getD 0 ≠ 0 := by
    refine ⟨hps, hst, ?_, ?_⟩
    · rw [hT]; exact hT0
    · rw [hd]; exact (ne_of_gt hd0)
  have hinterp : SendspinTUI.build_progress_bar_progress_ms s
      (T + (δ : ℚ) / 1000) = min d (p + (δ : ℤ)) := by
    unfold SendspinTUI.build_progress_bar_progress_ms
    rw [if_pos]
    · rw [hp, hd, hT]
      simp only [Option.getD_some]
      rw [elapsed_ms_eval, pyInt_natCast]
    · refine ⟨hps, ?_, ?_⟩
      · rw [hT]; exact hT0
      · rw [hd]; exact hd0
  have hset : SendspinTUI.set_playback_state s st (T + (δ : ℚ) / 1000) =
      { s with
        track_progress_ms := some (min d (p + (δ : ℤ)))
        progress_updated_at := T + (δ : ℚ) / 1000
        playback_state := some st } := by
    unfold SendspinTUI.set_playback_state
    simp only [if_pos hcond]
    rw [hp, hd, hT]
    simp only [Option.getD_some]
    rw [elapsed_ms_eval, pyInt_natCast]
  refine ⟨?_, ?_, hinterp⟩
  · rw [hset, hinterp]
  · intro t
    rw [hset]
    unfold SendspinTUI.build_progress_bar_progress_ms
    rw [if_neg]
    · rfl
    · intro hcon
      exact hst (by injection hcon.1)

theorem C2_freeze_progress_on_leaving_playing_witness :
    (SendspinTUI.set_playback_state
      { playback_state := some PlaybackStateType.playing,
        track_progress_ms := some 10000,
        track_duration_ms := some 30000,
        progress_updated_at := 7 }
      PlaybackStateType.paused (7 + (2000 : ℕ) / 1000)).track_progress_ms =
      some (SendspinTUI.build_progress_bar_progress_ms
        { playback_state := some PlaybackStateType.playing,
          track_progress_ms := some 10000,
          track_duration_ms := some 30000,
          progress_updated_at := 7 } (7 + (2000 : ℕ) / 1000)) ∧
    SendspinTUI.build_progress_bar_progress_ms
      (SendspinTUI.set_playback_state
        { playback_state := some PlaybackStateType.playing,
          track_progress_ms := some 10000,
          track_duration_ms := some 30000,
          progress_updated_at := 7 }
        PlaybackStateType.paused (7 + (2000 : ℕ) / 1000)) 12 =
      min 30000 (10000 + (2000 : ℤ)) := by
  have h := C2_freeze_progress_on_leaving_playing
    { playback_state := some PlaybackStateType.playing,
      track_progress_ms := some 10000,
      track_duration_ms := some 30000,
      progress_updated_at := 7 }
    10000 30000 7 2000 PlaybackStateType.paused rfl rfl rfl rfl
    (by norm_num) (by norm_num) (by decide)
  exact ⟨h.1, h.2.1 12⟩

/-- Media commands from `aiosendspin.models.types.MediaCommand`, with the
string values the examples compare against. -/
inductive MediaCommand
  | play
  | pause
  | next
  | previous
  | switch
deriving DecidableEq, Repr

/-- The string value of a media command (`command.value` in the examples). -/
def MediaCommand.value : MediaCommand → String
  | .play => "PLAY"
  | .pause => "PAUSE"
  | .next => "NEXT"
  | .previous => "PREVIOUS"
  | .switch => "SWITCH"

/-- Outcome of `CommandHandler.send_media_command`: how many times the
client's network-facing `send_media_command` was awaited, and the status
message set on rejection. -/
structure MediaSendOutcome where
  client_send_calls : ℕ
  status_message : Option String
deriving DecidableEq, Repr

namespace CommandHandler

/-- `CommandHandler.send_media_command` (tui.py lines 570-579): if the command
is not in the client's supported set, set a status message and return without
calling the client; otherwise await the client's network send once. -/
def send_media_command (supported : List MediaCommand) (cmd : MediaCommand) :
    MediaSendOutcome :=
  if cmd ∈ supported then
    { client_send_calls := 1, status_message := none }
  else
    { client_send_calls := 0,
      status_message := some ("Server does not support " ++ cmd.value) }

/-- `CommandHandler.change_player_volume` (tui.py lines 591-596): the target
volume sent to the client and stored in the UI. -/
def change_player_volume_target (volume delta : ℤ) : ℤ :=
  max 0 (min 100 (volume + delta))

end CommandHandler

/-- C3: a media command not contained in the advertised supported set is
rejected locally and synchronously — a status message reports the unsupported
command — and the protocol collaborator is never called (call count 0). -/
theorem C3_unsupported_command_rejected_locally (supported : List MediaCommand)
    (cmd : MediaCommand) (h : cmd ∉ supported) :
    (CommandHandler.send_media_command supported cmd).client_send_calls = 0 ∧
    (CommandHandler.send_media_command supported cmd).status_message =
      some ("Server does not support " ++ cmd.value) := by
  unfold CommandHandler.send_media_command
  rw [if_neg h]
  exact ⟨rfl, rfl⟩

theorem C3_unsupported_command_rejected_locally_witness :
    (CommandHandler.send_media_command
      [MediaCommand.play, MediaCommand.pause] MediaCommand.switch).client_send_calls
      = 0 := by
  exact (C3_unsupported_command_rejected_locally
    [MediaCommand.play, MediaCommand.pause] MediaCommand.switch (by decide)).1

namespace SendspinTUI

/-- `SendspinTUI.set_player_volume` (tui.py lines 482-486): store the player
volume and mute flag. -/
def set_player_volume (s : UIState) (volume : ℤ) (muted : Bool) : UIState :=
  { s with player_volume := volume, player_muted := muted }

end SendspinTUI

/-- C9: the local player volume path clamps every requested value to [0,100]:
for any current volume and any delta (arbitrarily negative or large), the
target computed by `change_player_volume` and stored via `set_player_volume`
lies in [0,100]. -/
theorem C9_player_volume_clamped (s : UIState) (volume delta : ℤ)
    (muted : Bool) :
    0 ≤ (SendspinTUI.set_player_volume s
          (CommandHandler.change_player_volume_target volume delta)
          muted).player_volume ∧
    (SendspinTUI.set_player_volume s
          (CommandHandler.change_player_volume_target volume delta)
          muted).player_volume ≤ 100 := by
  show 0 ≤ CommandHandler.change_player_volume_target volume delta ∧
    CommandHandler.change_player_volume_target volume delta ≤ 100
  unfold CommandHandler.change_player_volume_target
  constructor
  · exact le_max_left 0 _
  · exact max_le (by norm_num) (min_le_left _ _)

namespace SendspinTUI

/-- `SendspinTUI.show_server_selector` (tui.py lines 493-498): store the
server list, reset the selection index to 0 and show the selector. -/
def show_server_selector (s : UIState) (servers : List DiscoveredServer) :
    UIState :=
  { s with
    available_servers := servers
    selected_server_index := 0
    show_server_selector := true }

/-- `SendspinTUI.move_server_selection` (tui.py lines 509-517): a no-op when
the server list is empty; otherwise add the delta and clamp the index into
`[0, len - 1]`. -/
def move_server_selection (s : UIState) (delta : ℤ) : UIState :=
  if s.available_servers = [] then s
  else
    { s with
      selected_server_index :=
        max 0 (min ((s.available_servers.length : ℤ) - 1)
          (s.selected_server_index + delta)) }

/-- `SendspinTUI.get_selected_server` (tui.py lines 519-525): `none` when the
list is empty or the index is out of range, otherwise the element at the
selected index. -/
def get_selected_server (s : UIState) : Option DiscoveredServer :=
  if s.available_servers = [] then none
  else if 0 ≤ s.selected_server_index ∧
      s.selected_server_index < (s.available_servers.length : ℤ) then
    s.available_servers.get? s.selected_server_index.toNat
  else none

end SendspinTUI

/-- A selector operation of `examples/tui.py`: either
`show_server_selector servers` or `move_server_selection delta`. -/
inductive SelectorOp
  | showSel (servers : List DiscoveredServer)
  | moveSel (delta : ℤ)

/-- Apply one selector operation to the UI state. -/
def applySelectorOp (s : UIState) : SelectorOp → UIState
  | .showSel servers => SendspinTUI.show_server_selector s servers
  | .moveSel delta => SendspinTUI.move_server_selection s delta

/-- Apply a sequence of selector operations, first operation first. -/
def applySelectorOps (s : UIState) (ops : List SelectorOp) : UIState :=
  ops.foldl applySelectorOp s

/-- The selector index invariant: the server list is empty, or the selected
index lies in `[0, length - 1]`. -/
def SelectorInv (s : UIState) : Prop :=
  s.available_servers = [] ∨
    (0 ≤ s.selected_server_index ∧
      s.selected_server_index < (s.available_servers.length : ℤ))

theorem selectorInv_ofNonneg (s : UIState)
    (h0 : 0 ≤ s.selected_server_index)
    (h1 : s.selected_server_index < (s.available_servers.length : ℤ)) :
    SelectorInv s := Or.inr ⟨h0, h1⟩

theorem selectorInv_applyOp (s : UIState) (op : SelectorOp)
    (h : SelectorInv s) : SelectorInv (applySelectorOp s op) := by
  cases op with
  | showSel servers =>
    unfold applySelectorOp SendspinTUI.show_server_selector
    cases servers with
    | nil => exact Or.inl rfl
    | cons a l =>
      refine Or.inr ⟨le_refl 0, ?_⟩
      simp only [List.length_cons]
      positivity
  | moveSel delta =>
    simp only [applySelectorOp, SendspinTUI.move_server_selection]
    by_cases he : s.available_servers = []
    · rw [if_pos he]; exact h
    · rw [if_neg he]
      refine Or.inr ⟨le_max_left 0 _, ?_⟩
      have hlen : 0 < s.available_servers.length := by
        cases hl : s.available_servers with
        | nil => exact absurd hl he
        | cons a l => simp
      have : ((s.available_servers.length : ℤ) - 1) <
          (s.available_servers.length : ℤ) := by omega
      calc max 0 (min ((s.available_servers.length : ℤ) - 1)
              (s.selected_server_index + delta))
          ≤ max 0 ((s.available_servers.length : ℤ) - 1) :=
            max_le_max (le_refl 0) (min_le_left _ _)
        _ < (s.available_servers.length : ℤ) := by
            apply max_lt _ this
            exact_mod_cast hlen

theorem selectorInv_applyOps (s : UIState) (ops : List SelectorOp)
    (h : SelectorInv s) : SelectorInv (applySelectorOps s ops) := by
  induction ops generalizing s with
  | nil => exact h
  | cons op rest ih =>
    exact ih (applySelectorOp s op) (selectorInv_applyOp s op h)

/-- C10: starting from the initial UI state, after any sequence of
`show_server_selector` / `move_server_selection` calls: if the available
server list is non-empty the selected index lies in `[0, length - 1]` and
`get_selected_server` returns exactly the list element at that index (an
in-bounds access); if the list is empty, `move_server_selection` is a no-op
and `get_selected_server` returns `none`. -/
theorem C10_server_selector_index_invariant (ops : List SelectorOp) :
    (((applySelectorOps {} ops).available_servers ≠ []) →
      0 ≤ (applySelectorOps {} ops).selected_server_index ∧
      (applySelectorOps {} ops).selected_server_index ≤
        ((applySelectorOps {} ops).available_servers.length : ℤ) - 1 ∧
      SendspinTUI.get_selected_server (applySelectorOps {} ops) =
        (applySelectorOps {} ops).available_servers.get?
          (applySelectorOps {} ops).selected_server_index.toNat ∧
      (SendspinTUI.get_selected_server (applySelectorOps {} ops)).isSome = true) ∧
    (((applySelectorOps {} ops).available_servers = []) →
      (∀ delta : ℤ,
        SendspinTUI.move_server_selection (applySelectorOps {} ops) delta =
          applySelectorOps {} ops) ∧
      SendspinTUI.get_selected_server (applySelectorOps {} ops) = none) := by
  have hinv : SelectorInv (applySelectorOps {} ops) := by
    apply selectorInv_applyOps
    exact Or.inl rfl
  set s := applySelectorOps {} ops with hs
  constructor
  · intro hne
    have hbound : 0 ≤ s.selected_server_index ∧
        s.selected_server_index < (s.available_servers.length : ℤ) := by
      cases hinv with
      | inl h => exact absurd h hne
      | inr h => exact h
    refine ⟨hbound.1, by omega, ?_, ?_⟩
    · unfold SendspinTUI.get_selected_server
      rw [if_neg hne, if_pos hbound]
    · unfold SendspinTUI.get_selected_server
      rw [if_neg hne, if_pos hbound]
      rw [List.get?_eq_get (by omega)]
      rfl
  · intro hemp
    constructor
    · intro delta
      unfold SendspinTUI.move_server_selection
      rw [if_pos hemp]
    · unfold SendspinTUI.get_selected_server
      rw [if_pos hemp]

theorem C10_server_selector_index_invariant_witness :
    (SendspinTUI.get_selected_server
      (applySelectorOps {}
        [SelectorOp.showSel [⟨"a", "h1", 1, "u1"⟩, ⟨"b", "h2", 2, "u2"⟩],
         SelectorOp.moveSel 5])).isSome = true ∧
    SendspinTUI.move_server_selection (applySelectorOps {} []) 3 =
      applySelectorOps {} [] := by
  constructor
  · exact ((C10_server_selector_index_invariant
      [SelectorOp.showSel [⟨"a", "h1", 1, "u1"⟩, ⟨"b", "h2", 2, "u2"⟩],
       SelectorOp.moveSel 5]).1 (by decide)).2.2.2
  · exact ((C10_server_selector_index_invariant []).2 (by decide)).1 3

/-- Modelled from the spec: the VolumeState data model of the core library
(`aiosendspin_sounddevice/client.py`, not present under `src/`): two
independent volume/mute pairs, volumes in 0-100. -/
structure VolumeState where
  group_volume : ℤ
  group_muted : Bool
  player_volume : ℤ
  player_muted : Bool
deriving DecidableEq, Repr

namespace VolumeController

/-- Modelled from the spec: `VolumeController.effective_gain` of the core
library (not present under `src/`): 0 if either group_muted or player_muted is
true, else (group_volume/100) x (player_volume/100). -/
def effective_gain (v : VolumeState) : ℚ :=
  if v.group_muted || v.player_muted then 0
  else ((v.group_volume : ℚ) / 100) * ((v.player_volume : ℚ) / 100)

/-- Modelled from the spec: `VolumeController.set_player_volume` of the core
library (not present under `src/`): clamps v to [0,100] and stores the mute
flag; called only from local user commands. -/
def set_player_volume (v : VolumeState) (volume : ℤ) (muted : Bool) :
    VolumeState :=
  { v with player_volume := max 0 (min 100 volume), player_muted := muted }

end VolumeController

/-- C4: for group and player volumes in [0,100] and any mute combination,
`effective_gain` is 0 when either mute flag is set and otherwise equals
(group_volume/100) x (player_volume/100); the result always lies in [0,1]. -/
theorem C4_effective_gain (v : VolumeState)
    (hg0 : 0 ≤ v.group_volume) (hg1 : v.group_volume ≤ 100)
    (hp0 : 0 ≤ v.player_volume) (hp1 : v.player_volume ≤ 100) :
    ((v.group_muted = true ∨ v.player_muted = true) →
      VolumeController.effective_gain v = 0) ∧
    ((v.group_muted = false ∧ v.player_muted = false) →
      VolumeController.effective_gain v =
        ((v.group_volume : ℚ) / 100) * ((v.player_volume : ℚ) / 100)) ∧
    0 ≤ VolumeController.effective_gain v ∧
    VolumeController.effective_gain v ≤ 1 := by
  have hgq0 : (0 : ℚ) ≤ (v.group_volume : ℚ) / 100 := by positivity
  have hpq0 : (0 : ℚ) ≤ (v.player_volume : ℚ) / 100 := by positivity
  have hgq1 : (v.group_volume : ℚ) / 100 ≤ 1 := by
    rw [div_le_one (by norm_num)]
    exact_mod_cast hg1
  have hpq1 : (v.player_volume : ℚ) / 100 ≤ 1 := by
    rw [div_le_one (by norm_num)]
    exact_mod_cast hp1
  refine ⟨?_, ?_, ?_, ?_⟩
  · intro hm
    unfold VolumeController.effective_gain
    rw [if_pos]
    rcases hm with hm | hm <;> simp [hm]
  · intro hm
    unfold VolumeController.effective_gain
    rw [if_neg]
    simp [hm.1, hm.2]
  · unfold VolumeController.effective_gain
    by_cases hm : (v.group_muted || v.player_muted) = true
    · rw [if_pos hm]
    · rw [if_neg hm]
      exact mul_nonneg hgq0 hpq0
  · unfold VolumeController.effective_gain
    by_cases hm : (v.group_muted || v.player_muted) = true
    · rw [if_pos hm]; norm_num
    · rw [if_neg hm]
      calc ((v.group_volume : ℚ) / 100) * ((v.player_volume : ℚ) / 100)
          ≤ 1 * 1 := mul_le_mul hgq1 hpq1 hpq0 (by norm_num)
        _ = 1 := by norm_num

theorem C4_effective_gain_witness :
    VolumeController.effective_gain ⟨50, false, 80, false⟩ =
      ((50 : ℚ) / 100) * ((80 : ℚ) / 100) ∧
    0 ≤ VolumeController.effective_gain ⟨50, false, 80, false⟩ ∧
    VolumeController.effective_gain ⟨50, false, 80, false⟩ ≤ 1 ∧
    VolumeController.effective_gain ⟨50, true, 80, false⟩ = 0 := by
  have h1 := C4_effective_gain ⟨50, false, 80, false⟩
    (by norm_num) (by norm_num) (by norm_num) (by norm_num)
  have h2 := C4_effective_gain ⟨50, true, 80, false⟩
    (by norm_num) (by norm_num) (by norm_num) (by norm_num)
  exact ⟨h1.2.1 ⟨rfl, rfl⟩, h1.2.2.1, h1.2.2.2, h2.1 (Or.inl rfl)⟩

/-- The connection-failure classes of the reconnect loop in
`examples/comprehensive.py`: `TimeoutError`, `OSError` and `ClientError` are
the transient I/O classes caught by the first handler; every other `Exception`
is caught by the second, unexpected-error handler. -/
inductive ConnFailure
  | timeoutError
  | osError
  | clientError
  | unexpected
deriving DecidableEq, Repr

/-- Whether a failure belongs to the transient I/O class (the first `except`
clause of `examples/comprehensive.py`, lines 148-151). -/
def isTransientIOError : ConnFailure → Bool
  | .timeoutError => true
  | .osError => true
  | .clientError => true
  | .unexpected => false

/-- What the surrounding application does after a failure: retry after a fixed
delay in seconds. -/
inductive RetryDecision
  | retryAfterSeconds (delay : ℚ)
deriving DecidableEq, Repr

/-- The reconnect loop of `examples/comprehensive.py` (lines 136-157): the
transient handler sleeps 5.0 s and loops; the unexpected handler also sleeps
5.0 s and loops. -/
def reconnect_loop_on_failure : ConnFailure → RetryDecision
  | .timeoutError => .retryAfterSeconds 5
  | .osError => .retryAfterSeconds 5
  | .clientError => .retryAfterSeconds 5
  | .unexpected => .retryAfterSeconds 5

namespace ConnectionSupervisor

/-- Modelled from the spec: `ConnectionSupervisor.connect` of the core library
(not present under `src/`) performs exactly one connection attempt through the
protocol collaborator, reporting failure as a typed error; the core never
retries internally. The result pairs the typed outcome with the number of
protocol connection attempts made. -/
def connect (outcome : Option ConnFailure) : Except ConnFailure Unit × ℕ :=
  match outcome with
  | none => (Except.ok (), 1)
  | some e => (Except.error e, 1)

/-- Connection lifecycle states of the core library data model. -/
inductive ConnectionState
  | disconnected
  | connecting
  | connected
  | disconnecting
deriving DecidableEq, Repr

/-- Modelled from the spec: the state reached after a `connect` attempt — on
success Connected, on failure the client stays Disconnected (no session was
established). -/
def connectResultState (outcome : Option ConnFailure) : ConnectionState :=
  match outcome with
  | none => ConnectionState.connected
  | some _ => ConnectionState.disconnected

/-- Modelled from the spec: `ConnectionSupervisor.disconnect` of the core
library (not present under `src/`): transitions every state to Disconnected
and never raises; the second component records whether an error was raised. -/
def disconnect (_ : ConnectionState) : ConnectionState × Bool :=
  (ConnectionState.disconnected, false)

end ConnectionSupervisor

/-- C5: the core's `connect` makes exactly one protocol attempt whatever the
outcome (it never retries), the reference application retries every
connection-failure class, the two classes are distinguishable
(transient I/O vs. unexpected), and the fixed retry delay is the identical
5 seconds for every class. -/
theorem C5_reference_retry_behaviour :
    (∀ outcome : Option ConnFailure,
      (ConnectionSupervisor.connect outcome).2 = 1) ∧
    (∀ e : ConnFailure,
      reconnect_loop_on_failure e = RetryDecision.retryAfterSeconds 5) ∧
    (∀ e1 e2 : ConnFailure,
      reconnect_loop_on_failure e1 = reconnect_loop_on_failure e2) ∧
    isTransientIOError ConnFailure.osError = true ∧
    isTransientIOError ConnFailure.unexpected = false := by
  refine ⟨?_, ?_, ?_, rfl, rfl⟩
  · intro outcome
    cases outcome with
    | none => rfl
    | some e => rfl
  · intro e
    cases e <;> rfl
  · intro e1 e2
    cases e1 <;> cases e2 <;> rfl

/-- C6: `disconnect` is idempotent — calling it when already disconnected
(including after a failed `connect`, when no session was ever established)
leaves the state Disconnected, raises no error, and repeating it changes
nothing. -/
theorem C6_disconnect_idempotent :
    ConnectionSupervisor.disconnect ConnectionSupervisor.ConnectionState.disconnected =
      (ConnectionSupervisor.ConnectionState.disconnected, false) ∧
    (∀ s : ConnectionSupervisor.ConnectionState,
      ConnectionSupervisor.disconnect (ConnectionSupervisor.disconnect s).1 =
        ConnectionSupervisor.disconnect s) ∧
    (∀ e : ConnFailure,
      ConnectionSupervisor.disconnect
          (ConnectionSupervisor.connectResultState (some e)) =
        (ConnectionSupervisor.ConnectionState.disconnected, false)) := by
  refine ⟨rfl, ?_, ?_⟩
  · intro s
    rfl
  · intro e
    rfl

/-- The TimelineSample data model: a timing reference pairing a server
timestamp with the local monotonic clock reading at which it was observed
(both in microseconds). -/
structure TimelineSample where
  server_timestamp_us : ℤ
  local_monotonic_us : ℤ
deriving DecidableEq, Repr

/-- Modelled from the spec: the TimelineClock of the core library (not present
under `src/`). It tracks the fitted server-minus-local offset, the last value
returned by `now_server_us` (the monotonic floor), and the resync threshold
beyond which an offset jump is treated as a resync rather than a gradual
correction. -/
structure TimelineClock where
  offset_us : ℤ
  last_returned_us : ℤ
  resync_threshold_us : ℤ
deriving DecidableEq, Repr

namespace TimelineClock

/-- The offset a sample induces between the server timeline and the local
monotonic clock. -/
def sampleOffset (s : TimelineSample) : ℤ :=
  s.server_timestamp_us - s.local_monotonic_us

/-- Whether a sample forces a resync: its offset jump relative to the current
fit exceeds the resync threshold. -/
def isResync (c : TimelineClock) (s : TimelineSample) : Bool :=
  decide (c.resync_threshold_us < |sampleOffset s - c.offset_us|)

/-- Modelled from the spec: `TimelineClock.update` (least-recent-wins offset
tracking). A sample within the threshold refits the offset and keeps the
monotonic floor; a sample beyond the threshold is a resync that refits the
offset and resets the floor to the sample's own server-time estimate. -/
def update (c : TimelineClock) (s : TimelineSample) : TimelineClock :=
  if isResync c s then
    { c with
      offset_us := sampleOffset s
      last_returned_us := s.local_monotonic_us + sampleOffset s }
  else
    { c with offset_us := sampleOffset s }

/-- Modelled from the spec: `TimelineClock.now_server_us` maps the local
monotonic reading through the fitted offset, clamped below by the last
returned value so that successive calls are non-decreasing absent a resync. -/
def now_server_us (c : TimelineClock) (local_us : ℤ) : ℤ × TimelineClock :=
  let est := local_us + c.offset_us
  let out := max est c.last_returned_us
  (out, { c with last_returned_us := out })

/-- Apply a list of timing samples in order. -/
def applySamples (c : TimelineClock) (ss : List TimelineSample) :
    TimelineClock :=
  ss.foldl update c

/-- No sample along the list forces a resync (checked against the state the
clock is in when the sample arrives). -/
def noResyncAlong (c : TimelineClock) : List TimelineSample → Bool
  | [] => true
  | s :: rest => !(isResync c s) && noResyncAlong (update c s) rest

theorem last_returned_of_noResync (c : TimelineClock)
    (ss : List TimelineSample) (h : noResyncAlong c ss = true) :
    (applySamples c ss).last_returned_us = c.last_returned_us := by
  induction ss generalizing c with
  | nil => rfl
  | cons s rest ih =>
    unfold noResyncAlong at h
    rw [Bool.and_eq_true] at h
    have hupd : (update c s).last_returned_us = c.last_returned_us := by
      unfold update
      rw [if_neg]
      intro hcon
      rw [hcon] at h
      exact Bool.noConfusion h.1
    calc (applySamples c (s :: rest)).last_returned_us
        = (applySamples (update c s) rest).last_returned_us := rfl
      _ = (update c s).last_returned_us := ih (update c s) h.2
      _ = c.last_returned_us := hupd

end TimelineClock

/-- C8: for two successive `now_server_us` calls at local times `t1 ≤ t2`,
with any samples arriving in between none of which forces a correction beyond
the resync threshold, the second returned value is at least the first. -/
theorem C8_timeline_clock_monotonic (c : TimelineClock) (t1 t2 : ℤ)
    (ss : List TimelineSample)
    (hres : TimelineClock.noResyncAlong (TimelineClock.now_server_us c t1).2 ss
      = true)
    (hloc : t1 ≤ t2) :
    (TimelineClock.now_server_us c t1).1 ≤
      (TimelineClock.now_server_us
        (TimelineClock.applySamples (TimelineClock.now_server_us c t1).2 ss)
        t2).1 := by
  set c1 := (TimelineClock.now_server_us c t1).2 with hc1
  have h1 : c1.last_returned_us = (TimelineClock.now_server_us c t1).1 := rfl
  have h2 : (TimelineClock.applySamples c1 ss).last_returned_us =
      c1.last_returned_us :=
    TimelineClock.last_returned_of_noResync c1 ss hres
  calc (TimelineClock.now_server_us c t1).1
      = (TimelineClock.applySamples c1 ss).last_returned_us := by
        rw [h2, h1]
    _ ≤ max (t2 + (TimelineClock.applySamples c1 ss).offset_us)
        (TimelineClock.applySamples c1 ss).last_returned_us := le_max_right _ _
    _ = (TimelineClock.now_server_us (TimelineClock.applySamples c1 ss) t2).1
        := rfl

theorem C8_timeline_clock_monotonic_witness :
    TimelineClock.noResyncAlong
      (TimelineClock.now_server_us ⟨100, 0, 50⟩ 10).2
      [⟨130, 20⟩] = true ∧
    (TimelineClock.now_server_us ⟨100, 0, 50⟩ 10).1 ≤
      (TimelineClock.now_server_us
        (TimelineClock.applySamples
          (TimelineClock.now_server_us ⟨100, 0, 50⟩ 10).2 [⟨130, 20⟩]) 25).1 := by
  refine ⟨by decide, ?_⟩
  exact C8_timeline_clock_monotonic ⟨100, 0, 50⟩ 10 25 [⟨130, 20⟩]
    (by decide) (by decide)

/-- The AudioFrame data model: a decoded audio frame tagged with its server
play time; its play-time range is `[play_at_us, play_at_us + dur_us)`, the
duration deriving from the sample count and rate. -/
structure AudioFrame where
  play_at_us : ℕ
  dur_us : ℕ
deriving DecidableEq, Repr

/-- End of a frame's play-time range. -/
def AudioFrame.endTime (f : AudioFrame) : ℕ := f.play_at_us + f.dur_us

/-- Ascending play-time order on frames. -/
def frameLe (a b : AudioFrame) : Prop := a.play_at_us ≤ b.play_at_us

instance : DecidableRel frameLe :=
  fun a b => Nat.decLe a.play_at_us b.play_at_us

instance : IsTotal AudioFrame frameLe :=
  ⟨fun a b => Nat.le_total a.play_at_us b.play_at_us⟩

instance : IsTrans AudioFrame frameLe :=
  ⟨fun _ _ _ hab hbc => Nat.le_trans hab hbc⟩

/-- The RingBufferState data model: a capacity in microseconds and the ordered
frame sequence. -/
structure RingBufferState where
  capacity_us : ℕ
  frames : List AudioFrame
deriving DecidableEq, Repr

namespace AudioRingBuffer

/-- Total buffered (occupied) duration. -/
def occupied_us (b : RingBufferState) : ℕ :=
  (b.frames.map AudioFrame.dur_us).sum

/-- Whether a frame's play-time range `[play_at_us, endTime)` overlaps the
half-open window `[ws, we)`. -/
def overlapsWindow (f : AudioFrame) (ws we : ℕ) : Bool :=
  decide (ws < f.endTime ∧ f.play_at_us < we)

/-- Modelled from the spec: `AudioRingBuffer.push` of the core library (not
present under `src/`): enqueue ordered by `play_at_us`, rejecting with
BufferFull (`false`) when the occupied duration would exceed the capacity. -/
def push (b : RingBufferState) (f : AudioFrame) : RingBufferState × Bool :=
  if occupied_us b + f.dur_us ≤ b.capacity_us then
    ({ b with frames := b.frames.orderedInsert frameLe f }, true)
  else
    (b, false)

/-- Modelled from the spec: `AudioRingBuffer.pop_for` of the core library (not
present under `src/`): remove and return the frames whose play-time range
overlaps the window; a window with no overlapping frame yields the empty
(silence/underrun) result rather than an error. -/
def pop_for (b : RingBufferState) (ws we : ℕ) :
    RingBufferState × List AudioFrame :=
  ({ b with frames := b.frames.filter fun f => !(overlapsWindow f ws we) },
   b.frames.filter fun f => overlapsWindow f ws we)

/-- Modelled from the spec: `AudioRingBuffer.flush` empties the buffer. -/
def flush (b : RingBufferState) : RingBufferState :=
  { b with frames := [] }

/-- A ring-buffer operation: push a frame, pop a window, or flush. -/
inductive RingOp
  | pushOp (f : AudioFrame)
  | popForOp (ws we : ℕ)
  | flushOp
deriving DecidableEq, Repr

/-- Apply one ring-buffer operation (keeping the resulting buffer state). -/
def applyRingOp (b : RingBufferState) : RingOp → RingBufferState
  | .pushOp f => (push b f).1
  | .popForOp ws we => (pop_for b ws we).1
  | .flushOp => flush b

/-- Apply a sequence of ring-buffer operations, first operation first. -/
def applyRingOps (b : RingBufferState) (ops : List RingOp) : RingBufferState :=
  ops.foldl applyRingOp b

/-- The empty buffer with the given capacity. -/
def initBuffer (cap : ℕ) : RingBufferState := ⟨cap, []⟩

/-- The ring-buffer invariant: occupied duration within capacity, frames in
ascending play-time order. -/
def BufInv (b : RingBufferState) : Prop :=
  occupied_us b ≤ b.capacity_us ∧ List.Sorted frameLe b.frames

theorem sum_map_filter_le (g : AudioFrame → ℕ) (p : AudioFrame → Bool)
    (l : List AudioFrame) :
    ((l.filter p).map g).sum ≤ (l.map g).sum := by
  induction l with
  | nil => simp
  | cons a l ih =>
    rw [List.filter_cons]
    by_cases h : p a
    · rw [if_pos h]
      simp only [List.map_cons, List.sum_cons]
      omega
    · rw [if_neg h]
      simp only [List.map_cons, List.sum_cons]
      omega

theorem occupied_push_le (b : RingBufferState) (f : AudioFrame)
    (h : occupied_us b + f.dur_us ≤ b.capacity_us) :
    occupied_us { b with frames := b.frames.orderedInsert frameLe f } ≤
      b.capacity_us := by
  have hperm : List.Perm (b.frames.orderedInsert frameLe f) (f :: b.frames) :=
    b.frames.perm_orderedInsert frameLe f
  have hsum : ((b.frames.orderedInsert frameLe f).map AudioFrame.dur_us).sum =
      ((f :: b.frames).map AudioFrame.dur_us).sum :=
    (hperm.map AudioFrame.dur_us).sum_eq
  unfold occupied_us at h ⊢
  simp only at hsum ⊢
  rw [hsum, List.map_cons, List.sum_cons]
  omega

theorem bufInv_applyRingOp (b : RingBufferState) (op : RingOp)
    (h : BufInv b) : BufInv (applyRingOp b op) := by
  cases op with
  | pushOp f =>
    simp only [applyRingOp, push]
    by_cases hc : occupied_us b + f.dur_us ≤ b.capacity_us
    · rw [if_pos hc]
      exact ⟨occupied_push_le b f hc, h.2.orderedInsert f b.frames⟩
    · rw [if_neg hc]
      exact h
  | popForOp ws we =>
    simp only [applyRingOp, pop_for]
    refine ⟨?_, ?_⟩
    · calc occupied_us { b with
            frames := b.frames.filter fun f => !(overlapsWindow f ws we) }
          ≤ occupied_us b :=
            sum_map_filter_le AudioFrame.dur_us _ b.frames
        _ ≤ b.capacity_us := h.1
    · exact h.2.filter _
  | flushOp =>
    exact ⟨Nat.zero_le _, List.sorted_nil⟩

theorem bufInv_applyRingOps (b : RingBufferState) (ops : List RingOp)
    (h : BufInv b) : BufInv (applyRingOps b ops) := by
  induction ops generalizing b with
  | nil => exact h
  | cons op rest ih =>
    exact ih (applyRingOp b op) (bufInv_applyRingOp b op h)

theorem capacity_applyRingOps (b : RingBufferState) (ops : List RingOp) :
    (applyRingOps b ops).capacity_us = b.capacity_us := by
  induction ops generalizing b with
  | nil => rfl
  | cons op rest ih =>
    have hstep : (applyRingOp b op).capacity_us = b.capacity_us := by
      cases op with
      | pushOp f =>
        simp only [applyRingOp, push]
        by_cases hc : occupied_us b + f.dur_us ≤ b.capacity_us
        · rw [if_pos hc]
        · rw [if_neg hc]
      | popForOp ws we => rfl
      | flushOp => rfl
    calc (applyRingOps b (op :: rest)).capacity_us
        = (applyRingOps (applyRingOp b op) rest).capacity_us := rfl
      _ = (applyRingOp b op).capacity_us := ih (applyRingOp b op)
      _ = b.capacity_us := hstep

end AudioRingBuffer

/-- C7: from the empty buffer of capacity `cap`, after any sequence of
push / pop_for / flush operations the occupied duration never exceeds `cap`;
`pop_for (ws, we)` returns exactly the buffered frames whose play-time range
overlaps `[ws, we)`, in ascending play-time order; and when no buffered frame
overlaps the window the result is the empty list (silence), not an error. -/
theorem C7_ring_buffer_invariant_and_pop_exact (cap : ℕ) (ops : List AudioRingBuffer.RingOp)
    (ws we : ℕ) :
    AudioRingBuffer.occupied_us
        (AudioRingBuffer.applyRingOps (AudioRingBuffer.initBuffer cap) ops) ≤ cap ∧
    (∀ f : AudioFrame,
      f ∈ (AudioRingBuffer.pop_for
            (AudioRingBuffer.applyRingOps (AudioRingBuffer.initBuffer cap) ops)
            ws we).2 ↔
        (f ∈ (AudioRingBuffer.applyRingOps (AudioRingBuffer.initBuffer cap) ops).frames ∧
          ws < f.endTime ∧ f.play_at_us < we)) ∧
    List.Sorted frameLe
      (AudioRingBuffer.pop_for
        (AudioRingBuffer.applyRingOps (AudioRingBuffer.initBuffer cap) ops)
        ws we).2 ∧
    ((∀ f ∈ (AudioRingBuffer.applyRingOps (AudioRingBuffer.initBuffer cap) ops).frames,
        AudioRingBuffer.overlapsWindow f ws we = false) →
      (AudioRingBuffer.pop_for
        (AudioRingBuffer.applyRingOps (AudioRingBuffer.initBuffer cap) ops)
        ws we).2 = []) := by
  have hinit : AudioRingBuffer.BufInv (AudioRingBuffer.initBuffer cap) :=
    ⟨Nat.zero_le _, List.sorted_nil⟩
  have hinv := AudioRingBuffer.bufInv_applyRingOps
    (AudioRingBuffer.initBuffer cap) ops hinit
  have hcap := AudioRingBuffer.capacity_applyRingOps
    (AudioRingBuffer.initBuffer cap) ops
  set b := AudioRingBuffer.applyRingOps (AudioRingBuffer.initBuffer cap) ops
    with hb
  refine ⟨?_, ?_, ?_, ?_⟩
  · calc AudioRingBuffer.occupied_us b ≤ b.capacity_us := hinv.1
      _ = cap := hcap
  · intro f
    show f ∈ b.frames.filter (fun f => AudioRingBuffer.overlapsWindow f ws we)
      ↔ _
    rw [List.mem_filter]
    unfold AudioRingBuffer.overlapsWindow
    rw [decide_eq_true_eq]
  · exact hinv.2.filter _
  · intro hall
    show b.frames.filter (fun f => AudioRingBuffer.overlapsWindow f ws we) = []
    rw [List.filter_eq_nil_iff]
    intro f hf
    rw [hall f hf]
    exact Bool.noConfusion

theorem C7_ring_buffer_invariant_and_pop_exact_witness :
    AudioRingBuffer.occupied_us
      (AudioRingBuffer.applyRingOps (AudioRingBuffer.initBuffer 40000)
        [AudioRingBuffer.RingOp.pushOp ⟨20000, 20000⟩,
         AudioRingBuffer.RingOp.pushOp ⟨0, 20000⟩]) ≤ 40000 ∧
    (AudioRingBuffer.pop_for
      (AudioRingBuffer.applyRingOps (AudioRingBuffer.initBuffer 40000)
        [AudioRingBuffer.RingOp.pushOp ⟨20000, 20000⟩,
         AudioRingBuffer.RingOp.pushOp ⟨0, 20000⟩])
      45000 60000).2 = [] := by
  have h := C7_ring_buffer_invariant_and_pop_exact 40000
    [AudioRingBuffer.RingOp.pushOp ⟨20000, 20000⟩,
     AudioRingBuffer.RingOp.pushOp ⟨0, 20000⟩] 45000 60000
  exact ⟨h.1, h.2.2.2 (by decide)⟩
